import Mathlib

/-!
Shallow embedding of `generate_icon.py`: a script that fills a 1024x1024 RGB
canvas with a dark background, strokes a three-point chevron polyline with a
140 px wide accent stroke (curve joint at the apex), overpaints filled circles
of radius 70 at the three vertices, saves the raster to `AppIcon.png` and
prints a confirmation line.

Images are modelled as pixel maps; a drawing primitive paints its region
(membership of the pixel centre in the ideal stroke geometry, in exact integer
arithmetic) with the fill color.  The curve joint of `draw.line` is modelled
as the full disc of radius width/2 at the interior vertex, a superset of the
pieslice the library rasterises.  The fallible save and the console output are
modelled by an explicit filesystem state and an `Except` result.
-/

/-- An RGB color triple, as the Python script passes to PIL for mode RGB. -/
abbrev Color : Type := ℕ × ℕ × ℕ

/-- `size = (1024, 1024)` from the script. -/
def size : ℕ × ℕ := (1024, 1024)

/-- `bg_color = (30, 32, 35)`, the dark gray background. -/
def bg_color : Color := (30, 32, 35)

/-- `accent_color = (80, 220, 100)`, the green of the glyph. -/
def accent_color : Color := (80, 220, 100)

/-- `line_width = 140`, the stroke width of the chevron. -/
def line_width : ℤ := 140

/-- `r = line_width / 2`, the cap/joint radius used for the circles. -/
def r : ℤ := line_width / 2

/-- Pixel `p` lies in the butt-capped thick stroke of the segment from `a` to
`b` with squared half-width `r2`: its projection parameter `t` onto the
segment lies between the endpoints and its squared perpendicular distance to
the supporting line is at most `r2` (stated multiplied through by the squared
segment length to stay in integers).  This is the ideal geometry of one
segment drawn by `draw.line` with a given width. -/
def segCovers (a b : ℤ × ℤ) (r2 : ℤ) (p : ℤ × ℤ) : Bool :=
  decide (0 ≤ (p.1 - a.1) * (b.1 - a.1) + (p.2 - a.2) * (b.2 - a.2) ∧
    (p.1 - a.1) * (b.1 - a.1) + (p.2 - a.2) * (b.2 - a.2) ≤
      (b.1 - a.1) * (b.1 - a.1) + (b.2 - a.2) * (b.2 - a.2) ∧
    ((p.1 - a.1) * (p.1 - a.1) + (p.2 - a.2) * (p.2 - a.2)) *
        ((b.1 - a.1) * (b.1 - a.1) + (b.2 - a.2) * (b.2 - a.2)) -
      ((p.1 - a.1) * (b.1 - a.1) + (p.2 - a.2) * (b.2 - a.2)) *
        ((p.1 - a.1) * (b.1 - a.1) + (p.2 - a.2) * (b.2 - a.2)) ≤
      r2 * ((b.1 - a.1) * (b.1 - a.1) + (b.2 - a.2) * (b.2 - a.2)))

/-- Pixel `p` lies in the closed disc of squared radius `r2` centred at `c`. -/
def discCovers (c : ℤ × ℤ) (r2 : ℤ) (p : ℤ × ℤ) : Bool :=
  decide ((p.1 - c.1) * (p.1 - c.1) + (p.2 - c.2) * (p.2 - c.2) ≤ r2)

/-- Squared distance from pixel `p` to the segment from `a` to `b` is at most
`r2`: the standard clamped point-to-segment distance test, in integers.  This
is the distance notion the background invariant of the spec speaks about. -/
def segWithin (a b : ℤ × ℤ) (r2 : ℤ) (p : ℤ × ℤ) : Bool :=
  if (p.1 - a.1) * (b.1 - a.1) + (p.2 - a.2) * (b.2 - a.2) ≤ 0 then
    decide ((p.1 - a.1) * (p.1 - a.1) + (p.2 - a.2) * (p.2 - a.2) ≤ r2)
  else if (b.1 - a.1) * (b.1 - a.1) + (b.2 - a.2) * (b.2 - a.2) ≤
      (p.1 - a.1) * (b.1 - a.1) + (p.2 - a.2) * (b.2 - a.2) then
    decide ((p.1 - b.1) * (p.1 - b.1) + (p.2 - b.2) * (p.2 - b.2) ≤ r2)
  else
    decide (((p.1 - a.1) * (p.1 - a.1) + (p.2 - a.2) * (p.2 - a.2)) *
        ((b.1 - a.1) * (b.1 - a.1) + (b.2 - a.2) * (b.2 - a.2)) -
      ((p.1 - a.1) * (b.1 - a.1) + (p.2 - a.2) * (b.2 - a.2)) *
        ((p.1 - a.1) * (b.1 - a.1) + (p.2 - a.2) * (b.2 - a.2)) ≤
      r2 * ((b.1 - a.1) * (b.1 - a.1) + (b.2 - a.2) * (b.2 - a.2)))

/-- Region painted by `draw.line(pts, width=w, joint="curve")`: the union of
the thick strokes of the consecutive segments, together with the joint discs
of radius `w / 2` at the interior vertices (curve joint). -/
def lineRegion (pts : List (ℤ × ℤ)) (w : ℤ) (p : ℤ × ℤ) : Bool :=
  (pts.zip pts.tail).any (fun ab => segCovers ab.1 ab.2 ((w / 2) * (w / 2)) p) ||
    ((pts.drop 1).dropLast).any (fun c => discCovers c ((w / 2) * (w / 2)) p)

/-- Region painted by `draw.ellipse((x0, y0, x1, y1), fill)`: the filled
ellipse inscribed in the bounding box, i.e. centre `((x0+x1)/2, (y0+y1)/2)`
and full axes `x1-x0`, `y1-y0` (stated multiplied through by 4 to stay in
integers). -/
def ellipseCovers (x0 y0 x1 y1 : ℤ) (p : ℤ × ℤ) : Bool :=
  decide ((2 * p.1 - (x0 + x1)) * (2 * p.1 - (x0 + x1)) * ((y1 - y0) * (y1 - y0)) +
      (2 * p.2 - (y0 + y1)) * (2 * p.2 - (y0 + y1)) * ((x1 - x0) * (x1 - x0)) ≤
    (x1 - x0) * (x1 - x0) * ((y1 - y0) * (y1 - y0)))

/-- A PIL raster image: its mode string, its dimensions, and its pixel map. -/
@[ext]
structure PILImage where
  mode : String
  width : ℕ
  height : ℕ
  px : ℤ → ℤ → Color

/-- `Image.new(mode, size, color)`: a canvas of the given size filled
entirely with `color`. -/
def PILImage.new (mode : String) (sz : ℕ × ℕ) (color : Color) : PILImage :=
  { mode := mode, width := sz.1, height := sz.2, px := fun _ _ => color }

/-- Painting a region with a fill color: pixels in the region take the fill
color, all other pixels are unchanged.  The drawing primitives of
`ImageDraw` write the pure fill color, with no antialiasing or blending. -/
def paint (img : PILImage) (region : ℤ × ℤ → Bool) (fill : Color) : PILImage :=
  { img with px := fun x y => if region (x, y) then fill else img.px x y }

/-- `draw.line(pts, fill, width, joint="curve")`. -/
def PILImage.line (img : PILImage) (pts : List (ℤ × ℤ)) (fill : Color) (w : ℤ) : PILImage :=
  paint img (lineRegion pts w) fill

/-- `draw.ellipse((x0, y0, x1, y1), fill)`. -/
def PILImage.ellipse (img : PILImage) (x0 y0 x1 y1 : ℤ) (fill : Color) : PILImage :=
  paint img (ellipseCovers x0 y0 x1 y1) fill

/-- `img = Image.new('RGB', size, color=bg_color)`. -/
def img0 : PILImage := PILImage.new "RGB" size bg_color

/-- `draw.line([(200, 650), (512, 280), (824, 650)], fill=accent_color,
width=line_width, joint="curve")`. -/
def img1 : PILImage :=
  img0.line [(200, 650), (512, 280), (824, 650)] accent_color line_width

/-- `draw.ellipse((200-r, 650-r, 200+r, 650+r), fill=accent_color)`. -/
def img2 : PILImage := img1.ellipse (200 - r) (650 - r) (200 + r) (650 + r) accent_color

/-- `draw.ellipse((824-r, 650-r, 824+r, 650+r), fill=accent_color)`. -/
def img3 : PILImage := img2.ellipse (824 - r) (650 - r) (824 + r) (650 + r) accent_color

/-- `draw.ellipse((512-r, 280-r, 512+r, 280+r), fill=accent_color)`. -/
def img4 : PILImage := img3.ellipse (512 - r) (280 - r) (512 + r) (280 + r) accent_color

/-- The raster the script saves: the canvas after all four drawing steps. -/
def finalImg : PILImage := img4

/-- The only failure mode: the output path cannot be written. -/
inductive SaveError where
  | writeError
deriving DecidableEq

/-- Filesystem state for the effectful tail of the script: whether the
working directory is writable, and the files it holds. -/
structure FS where
  writable : Bool
  files : String → Option PILImage

/-- `img.save(name)`: overwrite `name` with the raster if the directory is
writable, otherwise raise a filesystem-write error. -/
def FS.save (fs : FS) (name : String) (img : PILImage) : Except SaveError FS :=
  if fs.writable then
    Except.ok { fs with files := fun n => if n = name then some img else fs.files n }
  else
    Except.error SaveError.writeError

/-- The fixed confirmation line the script prints after a successful save. -/
def confirmation : String := "Generated \x27Chevron Up\x27 icon."

/-- One run of the script after the in-memory drawing: save `finalImg` to
`AppIcon.png`, then print the confirmation.  On a save error the exception
propagates uncaught: the filesystem is left unchanged and no line is
printed. -/
def run (fs : FS) : FS × Except SaveError (List String) :=
  match fs.save "AppIcon.png" finalImg with
  | Except.ok fs2 => (fs2, Except.ok [confirmation])
  | Except.error e => (fs, Except.error e)

/-- A canvas entirely filled with the accent color (used to exercise the
idempotent-overpainting lemma). -/
def allAccentImg : PILImage := PILImage.new "RGB" size accent_color

/-- An empty writable working directory. -/
def emptyWritableFS : FS := { writable := true, files := fun _ => none }

/-- A writable working directory that already holds an `AppIcon.png`. -/
def occupiedFS : FS :=
  { writable := true, files := fun n => if n = "AppIcon.png" then some img0 else none }

/-- A read-only working directory. -/
def readonlyFS : FS := { writable := false, files := fun _ => none }

lemma r_eq : r = 70 := by decide

/-- The region of the chevron `draw.line` call: the two leg strokes plus the
curve-joint disc at the apex, all with squared half-width `70 * 70 = 4900`. -/
lemma lineRegion_eq (p : ℤ × ℤ) :
    lineRegion [(200, 650), (512, 280), (824, 650)] line_width p =
      ((segCovers (200, 650) (512, 280) 4900 p ||
        segCovers (512, 280) (824, 650) 4900 p) ||
        discCovers (512, 280) 4900 p) := by
  have h : (line_width / 2) * (line_width / 2) = (4900 : ℤ) := by decide
  simp [lineRegion, h]

/-- An ellipse whose bounding box is the square of half-side 70 around a
centre is exactly the disc of radius 70 around that centre. -/
lemma ellipse_bbox_disc (c1 c2 x y : ℤ) :
    ellipseCovers (c1 - 70) (c2 - 70) (c1 + 70) (c2 + 70) (x, y) =
      discCovers (c1, c2) 4900 (x, y) := by
  unfold ellipseCovers discCovers
  rw [decide_eq_decide]
  constructor <;> intro h <;> nlinarith [h]

/-- A pixel inside the butt-capped thick stroke of a (nondegenerate) segment
is within distance `sqrt r2` of that segment. -/
lemma segCovers_within (a b p : ℤ × ℤ) (r2 : ℤ)
    (hd : 0 < (b.1 - a.1) * (b.1 - a.1) + (b.2 - a.2) * (b.2 - a.2))
    (h : segCovers a b r2 p = true) : segWithin a b r2 p = true := by
  unfold segCovers at h
  simp only [decide_eq_true_eq] at h
  obtain ⟨h1, h2, h3⟩ := h
  unfold segWithin
  split
  · rename_i ht
    simp only [decide_eq_true_eq]
    have ht0 : (p.1 - a.1) * (b.1 - a.1) + (p.2 - a.2) * (b.2 - a.2) = 0 :=
      le_antisymm ht h1
    nlinarith [h3, hd, ht0]
  · split
    · rename_i ht ht2
      simp only [decide_eq_true_eq]
      have htd : (p.1 - a.1) * (b.1 - a.1) + (p.2 - a.2) * (b.2 - a.2) =
          (b.1 - a.1) * (b.1 - a.1) + (b.2 - a.2) * (b.2 - a.2) :=
        le_antisymm h2 ht2
      nlinarith [h3, hd, htd]
    · simp only [decide_eq_true_eq]
      exact h3

/-- Painting a region with a color every pixel of the region already has
leaves the image unchanged. -/
lemma paint_id (img : PILImage) (region : ℤ × ℤ → Bool) (fill : Color)
    (h : ∀ x y : ℤ, region (x, y) = true → img.px x y = fill) :
    paint img region fill = img := by
  refine PILImage.ext rfl rfl rfl ?_
  funext x y
  by_cases hr : region (x, y) = true
  · simp [paint, hr, h x y hr]
  · simp [paint, hr]

/-- Drawing a filled ellipse over pixels that already hold the fill color is
the identity. -/
lemma ellipse_id (img : PILImage) (x0 y0 x1 y1 : ℤ) (fill : Color)
    (h : ∀ x y : ℤ, ellipseCovers x0 y0 x1 y1 (x, y) = true → img.px x y = fill) :
    img.ellipse x0 y0 x1 y1 fill = img :=
  paint_id img (ellipseCovers x0 y0 x1 y1) fill h

/-- Reflecting a pixel about the vertical line `x = 512` carries the thick
stroke of the left leg onto the thick stroke of the right leg. -/
lemma segL_mirror (x y : ℤ) :
    segCovers (200, 650) (512, 280) 4900 (1024 - x, y) =
      segCovers (512, 280) (824, 650) 4900 (x, y) := by
  unfold segCovers
  dsimp only
  rw [decide_eq_decide]
  constructor <;> rintro ⟨h1, h2, h3⟩ <;>
    exact ⟨by linarith, by linarith, by nlinarith [h3]⟩

/-- Reflecting a pixel about `x = 512` carries the right leg stroke onto the
left leg stroke. -/
lemma segR_mirror (x y : ℤ) :
    segCovers (512, 280) (824, 650) 4900 (1024 - x, y) =
      segCovers (200, 650) (512, 280) 4900 (x, y) := by
  have h := segL_mirror (1024 - x) y
  rw [show (1024 : ℤ) - (1024 - x) = x by ring] at h
  exact h.symm

/-- Reflecting about `x = 512` carries the bottom-left cap disc onto the
bottom-right cap disc. -/
lemma discBL_mirror (x y : ℤ) :
    discCovers (200, 650) 4900 (1024 - x, y) = discCovers (824, 650) 4900 (x, y) := by
  unfold discCovers
  dsimp only
  rw [decide_eq_decide]
  constructor <;> intro h <;> nlinarith [h]

/-- Reflecting about `x = 512` carries the bottom-right cap disc onto the
bottom-left cap disc. -/
lemma discBR_mirror (x y : ℤ) :
    discCovers (824, 650) 4900 (1024 - x, y) = discCovers (200, 650) 4900 (x, y) := by
  unfold discCovers
  dsimp only
  rw [decide_eq_decide]
  constructor <;> intro h <;> nlinarith [h]

/-- The apex disc is its own reflection about `x = 512`. -/
lemma discA_mirror (x y : ℤ) :
    discCovers (512, 280) 4900 (1024 - x, y) = discCovers (512, 280) 4900 (x, y) := by
  unfold discCovers
  dsimp only
  rw [decide_eq_decide]
  constructor <;> intro h <;> nlinarith [h]

/-- Closed form of the final raster: a pixel is accent-colored exactly when
it lies in one of the two leg strokes or one of the three vertex discs, and
background-colored otherwise. -/
lemma finalImg_px (x y : ℤ) :
    finalImg.px x y =
      if (segCovers (200, 650) (512, 280) 4900 (x, y) ||
          segCovers (512, 280) (824, 650) 4900 (x, y) ||
          discCovers (200, 650) 4900 (x, y) ||
          discCovers (824, 650) 4900 (x, y) ||
          discCovers (512, 280) 4900 (x, y))
      then accent_color else bg_color := by
  have e1 := ellipse_bbox_disc 512 280 x y
  have e2 := ellipse_bbox_disc 824 650 x y
  have e3 := ellipse_bbox_disc 200 650 x y
  simp only [finalImg, img4, img3, img2, img1, img0, PILImage.ellipse, PILImage.line,
    PILImage.new, paint, r_eq, lineRegion_eq, e1, e2, e3]
  cases h1 : segCovers (200, 650) (512, 280) 4900 (x, y) <;>
    cases h2 : segCovers (512, 280) (824, 650) 4900 (x, y) <;>
      cases h3 : discCovers (200, 650) 4900 (x, y) <;>
        cases h4 : discCovers (824, 650) 4900 (x, y) <;>
          cases h5 : discCovers (512, 280) 4900 (x, y) <;>
            simp [h1, h2, h3, h4, h5]

/-- Claim C1: in the raster the program writes, the pixel at the apex
(512, 280) and the pixels at the two bottom endpoints (200, 650) and
(824, 650) each equal the accent color (80, 220, 100). -/
theorem accent_at_vertices :
    finalImg.px 512 280 = accent_color ∧ finalImg.px 200 650 = accent_color ∧
      finalImg.px 824 650 = accent_color := by
  decide

/-- Claim C2: the canvas starts out filled entirely with the background
color (30, 32, 35), and every pixel whose distance from both chevron leg
segments and from all three vertices exceeds the stroke half-width of 70 px
(squared distance above 4900, which covers any nonnegative margin on top of
70) still equals the background color in the final raster. -/
theorem background_far_pixels (x y : ℤ)
    (hL : segWithin (200, 650) (512, 280) 4900 (x, y) = false)
    (hR : segWithin (512, 280) (824, 650) 4900 (x, y) = false)
    (hBL : discCovers (200, 650) 4900 (x, y) = false)
    (hBR : discCovers (824, 650) 4900 (x, y) = false)
    (hA : discCovers (512, 280) 4900 (x, y) = false) :
    img0.px x y = bg_color ∧ finalImg.px x y = bg_color := by
  refine ⟨rfl, ?_⟩
  have hsL : segCovers (200, 650) (512, 280) 4900 (x, y) = false := by
    cases h : segCovers (200, 650) (512, 280) 4900 (x, y)
    · rfl
    · have := segCovers_within (200, 650) (512, 280) (x, y) 4900 (by decide) h
      rw [hL] at this
      exact absurd this (by decide)
  have hsR : segCovers (512, 280) (824, 650) 4900 (x, y) = false := by
    cases h : segCovers (512, 280) (824, 650) 4900 (x, y)
    · rfl
    · have := segCovers_within (512, 280) (824, 650) (x, y) 4900 (by decide) h
      rw [hR] at this
      exact absurd this (by decide)
  rw [finalImg_px, hsL, hsR, hBL, hBR, hA]
  rfl

/-- Witness for claim C2 at the corner pixel (0, 0). -/
theorem background_far_pixels_witness :
    segWithin (200, 650) (512, 280) 4900 (0, 0) = false ∧
      segWithin (512, 280) (824, 650) 4900 (0, 0) = false ∧
      discCovers (200, 650) 4900 (0, 0) = false ∧
      discCovers (824, 650) 4900 (0, 0) = false ∧
      discCovers (512, 280) 4900 (0, 0) = false ∧
      img0.px 0 0 = bg_color ∧ finalImg.px 0 0 = bg_color := by
  refine ⟨by decide, by decide, by decide, by decide, by decide, ?_, ?_⟩
  · exact (background_far_pixels 0 0 (by decide) (by decide) (by decide) (by decide)
      (by decide)).1
  · exact (background_far_pixels 0 0 (by decide) (by decide) (by decide) (by decide)
      (by decide)).2

/-- Claim C3: the output image is square, 1024 by 1024 pixels, in RGB mode
(three channels, no alpha). -/
theorem output_dimensions :
    finalImg.width = 1024 ∧ finalImg.height = 1024 ∧ finalImg.mode = "RGB" :=
  ⟨rfl, rfl, rfl⟩

/-- Claim C4: the rendered glyph is mirror-symmetric about the vertical line
x = 512: a pixel is accent-colored exactly when its mirror pixel is. -/
theorem glyph_mirror_symmetric (x y : ℤ) :
    finalImg.px x y = accent_color ↔ finalImg.px (1024 - x) y = accent_color := by
  rw [finalImg_px x y, finalImg_px (1024 - x) y, segL_mirror, segR_mirror,
    discBL_mirror, discBR_mirror, discA_mirror]
  cases h1 : segCovers (200, 650) (512, 280) 4900 (x, y) <;>
    cases h2 : segCovers (512, 280) (824, 650) 4900 (x, y) <;>
      cases h3 : discCovers (200, 650) 4900 (x, y) <;>
        cases h4 : discCovers (824, 650) 4900 (x, y) <;>
          cases h5 : discCovers (512, 280) 4900 (x, y) <;>
            simp [h1, h2, h3, h4, h5]

/-- Witness for claim C4 at the bottom-left vertex pixel. -/
theorem glyph_mirror_symmetric_witness :
    finalImg.px 200 650 = accent_color ↔ finalImg.px (1024 - 200) 650 = accent_color :=
  glyph_mirror_symmetric 200 650

/-- Claim C5: after stroking the polyline (producing `img1`), the program
draws three filled accent-colored circles, each the ellipse inscribed in the
axis-aligned square of half-side `r = line_width / 2 = 70` around one of the
three vertices — that is, the filled disc of radius 70 (squared radius
`r * r`) centred at (200, 650), (824, 650) and (512, 280) respectively. -/
theorem compensating_circles :
    finalImg =
      ((img1.ellipse (200 - r) (650 - r) (200 + r) (650 + r) accent_color).ellipse
          (824 - r) (650 - r) (824 + r) (650 + r) accent_color).ellipse
        (512 - r) (280 - r) (512 + r) (280 + r) accent_color ∧
    r = line_width / 2 ∧ r = 70 ∧
    (∀ x y : ℤ, ellipseCovers (200 - r) (650 - r) (200 + r) (650 + r) (x, y) =
      discCovers (200, 650) (r * r) (x, y)) ∧
    (∀ x y : ℤ, ellipseCovers (824 - r) (650 - r) (824 + r) (650 + r) (x, y) =
      discCovers (824, 650) (r * r) (x, y)) ∧
    (∀ x y : ℤ, ellipseCovers (512 - r) (280 - r) (512 + r) (280 + r) (x, y) =
      discCovers (512, 280) (r * r) (x, y)) := by
  refine ⟨rfl, rfl, r_eq, ?_, ?_, ?_⟩ <;> intro x y <;>
    rw [r_eq, show ((70 : ℤ) * 70) = 4900 by norm_num]
  · exact ellipse_bbox_disc 200 650 x y
  · exact ellipse_bbox_disc 824 650 x y
  · exact ellipse_bbox_disc 512 280 x y

/-- Witness for claim C5: the bottom-left circle test agrees with the disc
test at the concrete pixel (200, 600). -/
theorem compensating_circles_witness :
    ellipseCovers (200 - r) (650 - r) (200 + r) (650 + r) (200, 600) =
      discCovers (200, 650) (r * r) (200, 600) :=
  compensating_circles.2.2.2.1 200 600

/-- Claim C6: the program is deterministic: any two runs with no external
inputs write the same raster (`finalImg`, with its fixed dimensions and
pixel values) and produce the same console output. -/
theorem deterministic_output (fs1 fs2 : FS)
    (h1 : fs1.writable = true) (h2 : fs2.writable = true) :
    (run fs1).1.files "AppIcon.png" = some finalImg ∧
      (run fs2).1.files "AppIcon.png" = some finalImg ∧
      (run fs1).1.files "AppIcon.png" = (run fs2).1.files "AppIcon.png" ∧
      (run fs1).2 = (run fs2).2 := by
  unfold run FS.save
  rw [h1, h2]
  simp

/-- Witness for claim C6: two concrete writable filesystems. -/
theorem deterministic_output_witness :
    (run emptyWritableFS).1.files "AppIcon.png" = some finalImg ∧
      (run occupiedFS).1.files "AppIcon.png" = some finalImg ∧
      (run emptyWritableFS).2 = (run occupiedFS).2 := by
  have h := deterministic_output emptyWritableFS occupiedFS rfl rfl
  exact ⟨h.1, h.2.1, h.2.2.2⟩

/-- Claim C7: if the output file cannot be written, the save raises a
filesystem-write error that propagates uncaught: the run terminates with the
error, the filesystem is unchanged (no output file is produced), and no
confirmation line is printed. -/
theorem write_failure_propagates (fs : FS) (h : fs.writable = false) :
    (run fs).1 = fs ∧ (run fs).2 = Except.error SaveError.writeError := by
  unfold run FS.save
  rw [h]
  simp

/-- Witness for claim C7: a concrete read-only directory. -/
theorem write_failure_propagates_witness :
    (run readonlyFS).1 = readonlyFS ∧
      (run readonlyFS).2 = Except.error SaveError.writeError :=
  write_failure_propagates readonlyFS rfl

/-- Claim C8: a successful run writes exactly one file — `AppIcon.png`,
overwriting any existing file of that name without error — leaves every
other file and the writability flag unchanged, and emits exactly one console
line, the fixed confirmation string. -/
theorem single_write_single_print (fs : FS) (h : fs.writable = true) :
    (run fs).2 = Except.ok [confirmation] ∧
      (run fs).1.files "AppIcon.png" = some finalImg ∧
      (run fs).1.writable = fs.writable ∧
      ∀ n : String, n ≠ "AppIcon.png" → (run fs).1.files n = fs.files n := by
  unfold run FS.save
  rw [h]
  refine ⟨by simp, by simp, by simp, ?_⟩
  intro n hn
  simp [hn]

/-- Witness for claim C8: a directory that already holds an `AppIcon.png`
is overwritten without error, and an unrelated name is untouched. -/
theorem single_write_single_print_witness :
    occupiedFS.writable = true ∧
      (run occupiedFS).2 = Except.ok [confirmation] ∧
      (run occupiedFS).1.files "AppIcon.png" = some finalImg ∧
      (run occupiedFS).1.files "other.txt" = occupiedFS.files "other.txt" := by
  have h := single_write_single_print occupiedFS rfl
  exact ⟨rfl, h.1, h.2.1, h.2.2.2 "other.txt" (by decide)⟩

/-- Claim C9: the compensating circles are idempotent overpainting: on any
image that already holds the accent color on all three circle regions,
drawing the three accent-colored circles changes no pixel. -/
theorem circles_idempotent (img : PILImage)
    (h : ∀ x y : ℤ,
      (ellipseCovers (200 - r) (650 - r) (200 + r) (650 + r) (x, y) = true ∨
        ellipseCovers (824 - r) (650 - r) (824 + r) (650 + r) (x, y) = true ∨
        ellipseCovers (512 - r) (280 - r) (512 + r) (280 + r) (x, y) = true) →
      img.px x y = accent_color) :
    ((img.ellipse (200 - r) (650 - r) (200 + r) (650 + r) accent_color).ellipse
        (824 - r) (650 - r) (824 + r) (650 + r) accent_color).ellipse
      (512 - r) (280 - r) (512 + r) (280 + r) accent_color = img := by
  have hBL : img.ellipse (200 - r) (650 - r) (200 + r) (650 + r) accent_color = img :=
    ellipse_id img _ _ _ _ accent_color (fun x y hx => h x y (Or.inl hx))
  have hBR : img.ellipse (824 - r) (650 - r) (824 + r) (650 + r) accent_color = img :=
    ellipse_id img _ _ _ _ accent_color (fun x y hx => h x y (Or.inr (Or.inl hx)))
  have hA : img.ellipse (512 - r) (280 - r) (512 + r) (280 + r) accent_color = img :=
    ellipse_id img _ _ _ _ accent_color (fun x y hx => h x y (Or.inr (Or.inr hx)))
  rw [hBL, hBR, hA]

/-- Witness for claim C9: overpainting the circles on an all-accent canvas
is the identity. -/
theorem circles_idempotent_witness :
    ((allAccentImg.ellipse (200 - r) (650 - r) (200 + r) (650 + r) accent_color).ellipse
        (824 - r) (650 - r) (824 + r) (650 + r) accent_color).ellipse
      (512 - r) (280 - r) (512 + r) (280 + r) accent_color = allAccentImg :=
  circles_idempotent allAccentImg (fun _ _ _ => rfl)

/-- Claim C10: every pixel of the final raster is one of exactly two colors:
the background color or the accent color; no drawing step blends colors. -/
theorem two_colors_only (x y : ℤ) :
    finalImg.px x y = bg_color ∨ finalImg.px x y = accent_color := by
  rw [finalImg_px]
  split
  · right
    rfl
  · left
    rfl

/-- Witness for claim C10 at the concrete pixel (100, 100). -/
theorem two_colors_only_witness :
    finalImg.px 100 100 = bg_color ∨ finalImg.px 100 100 = accent_color :=
  two_colors_only 100 100
